import Mathlib

/-!
# Genkit-AIAgent-Demo: session history and generation configuration

A shallow embedding of `main.go` (`chatFlow`, `saveHistory`, the package
globals) and of the generation requests built in `tools.go`, followed by the
properties of the bounded per-session history that the code satisfies.

Modelling conventions.

* The package-level variables `history` and `maxTokens` are the fields of
  `Globals`; functions that write a global return the new value.
* A Go map `map[string][]*ai.Message` is a partial function from keys to
  slices; reading a missing key yields the nil slice, which behaves as the
  empty list under `len`, slicing and `append`.
* A Go run-time panic is the `error` branch of `Except Panic`.
* `os.Getenv` is a function from variable names to strings (the empty string
  for an unset variable).
* Slices are immutable lists: the only slice that outlives a call is the map
  entry, and `saveHistory` replaces it by the result of `append`.
* `genkit.Generate` is an external collaborator, taken as a parameter that
  maps the request it is given to a text or an error.
-/

namespace GenkitDemo

/-! ## Library models -/

/-- Process environment: the value `os.Getenv` returns for each key, the empty
string when the variable is unset. -/
abbrev Env := String → String

/-- Value of a decimal digit character, `none` for any other character. -/
def digitVal (c : Char) : Option Nat :=
  if 48 ≤ c.toNat ∧ c.toNat ≤ 57 then some (c.toNat - 48) else none

/-- Reads a run of decimal digits, accumulating most significant first; fails
on the first character that is not a digit. -/
def parseDigits : List Char → Nat → Option Nat
  | [], acc => some acc
  | c :: cs, acc =>
    match digitVal c with
    | some d => parseDigits cs (acc * 10 + d)
    | none => none

/-- Unsigned part of `strconv.Atoi`: at least one character, digits only. -/
def parseUnsigned (cs : List Char) : Option Nat :=
  match cs with
  | [] => none
  | _ :: _ => parseDigits cs 0

/-- Go's `strconv.Atoi` on a platform with 64-bit `int`: an optional sign
followed by one or more decimal digits, the value within
`[-2^63, 2^63 - 1]`; `none` stands for a non-nil error (syntax or range). -/
def Atoi (s : String) : Option Int :=
  match s.toList with
  | [] => none
  | c :: cs =>
    if c = '-' then
      match parseUnsigned cs with
      | some n => if n ≤ 2 ^ 63 then some (-(n : Int)) else none
      | none => none
    else if c = '+' then
      match parseUnsigned cs with
      | some n => if n < 2 ^ 63 then some (n : Int) else none
      | none => none
    else
      match parseUnsigned (c :: cs) with
      | some n => if n < 2 ^ 63 then some (n : Int) else none
      | none => none

/-- Go's conversion `int32(n)` of an `int`: the low 32 bits, two's
complement. -/
def toInt32 (n : Int) : Int :=
  (n + 2 ^ 31) % 2 ^ 32 - 2 ^ 31

/-- Run-time panics the embedded code can raise. -/
inductive Panic where
  | sliceBoundsOutOfRange
  deriving DecidableEq, Repr

/-- Go's slice expression `xs[lo:]`: panics unless `0 ≤ lo ≤ len(xs)`. -/
def sliceFrom {α : Type} (xs : List α) (lo : Int) : Except Panic (List α) :=
  if 0 ≤ lo ∧ lo ≤ (xs.length : Int) then .ok (xs.drop lo.toNat)
  else .error Panic.sliceBoundsOutOfRange

/-! ## Data model -/

/-- Roles of `ai.Message`. -/
inductive Role where
  | system
  | user
  | model
  | tool
  deriving DecidableEq, Repr

/-- Message part, `ai.Part`; only text parts are created by this program. -/
inductive Part where
  | text (s : String)
  deriving DecidableEq, Repr

/-- Constructor `ai.NewTextPart`. -/
def NewTextPart (s : String) : Part := Part.text s

/-- Go struct `ai.Message` restricted to the fields the program sets. -/
structure Message where
  role : Role
  content : List Part
  deriving DecidableEq, Repr

/-- The global `history`: a map from session id to its message slice. -/
abbrev Store := String → Option (List Message)

/-- Map read `history[k]`: the stored slice, or the nil slice (empty) when the
key is absent. -/
def Store.get (h : Store) (k : String) : List Message :=
  (h k).getD []

/-- Map write `history[k] = v`. -/
def Store.set (h : Store) (k : String) (v : List Message) : Store :=
  fun k' => if k' = k then some v else h k'

/-- Package-level variables of `main.go`. -/
structure Globals where
  history : Store
  maxTokens : Int

/-- State set up by `main` before serving: `history` is a fresh empty map and
`maxTokens` keeps Go's zero value, as nothing assigns it. -/
def initGlobals : Globals :=
  { history := fun _ => none, maxTokens := 0 }

/-- Request body of `POST /chat`. -/
structure ApiInput where
  Question : String
  SessionID : String
  deriving DecidableEq, Repr

/-- Input of the recipe tool. -/
structure RecipeInput where
  Ingredient : String
  DietaryRestrictions : String
  deriving DecidableEq, Repr

/-- Options handed to `genkit.Generate` / `genkit.GenerateData`. -/
structure GenerateRequest where
  system : Option String
  messages : List Message
  prompt : String
  tools : List String
  MaxOutputTokens : Int
  deriving DecidableEq, Repr

/-- The collaborator: the generated text, or a Go error (its message). -/
abbrev Generator := GenerateRequest → Except String String

/-! ## `main.go` -/

/-- The message `saveHistory` stores for the user's question. -/
def userMessageOf (userMessage : String) : Message :=
  { role := Role.user, content := [NewTextPart userMessage] }

/-- The message `saveHistory` stores for the model's answer. -/
def modelMessageOf (botMessage : String) : Message :=
  { role := Role.model, content := [NewTextPart botMessage] }

/-- Lines 101-104 of `saveHistory`: the parsed `USER_HISTORY_MAX_LENGTH`, or
10 when `Atoi` reports an error. -/
def historyMaxLength (env : Env) : Int :=
  match Atoi (env "USER_HISTORY_MAX_LENGTH") with
  | some n => n
  | none => 10

/-- Function `saveHistory` of `main.go`, on the global `history`. The index
`len(userHistory)-maxLength` is computed on unbounded integers, which agrees
with Go's 64-bit arithmetic for every slice length (`sliceIndex_wrap_irrelevant`
below). -/
def saveHistory (env : Env) (history : Store)
    (sessionID userMessage botMessage : String) : Except Panic Store :=
  if sessionID ≠ "" ∧ botMessage ≠ "" then
    let userHistory := history.get sessionID
    let maxLength := historyMaxLength env
    let trimmed : Except Panic (List Message) :=
      if (userHistory.length : Int) > maxLength then
        sliceFrom userHistory ((userHistory.length : Int) - maxLength)
      else .ok userHistory
    match trimmed with
    | .ok userHistory =>
      .ok (history.set sessionID
        (userHistory ++ [userMessageOf userMessage, modelMessageOf botMessage]))
    | .error p => .error p
  else .ok history

/-- Tool names registered in `toolRefList`, in order. -/
def toolRefList : List String :=
  ["generalQuestionAnswer", "getWeather", "guessAge", "guessGender", "getRecipe"]

/-- Lines 69-72 of `chatFlow`: the history read for the request. -/
def loadHistory (history : Store) (sessionID : String) : List Message :=
  if sessionID ≠ "" then history.get sessionID else []

/-- Lines 73-76 of `chatFlow`: the local `maxTokens`, the parsed
`LLM_MAX_OUTPUT_TOKENS_INT` or 500 when `Atoi` reports an error. -/
def chatMaxTokens (env : Env) : Int :=
  match Atoi (env "LLM_MAX_OUTPUT_TOKENS_INT") with
  | some n => n
  | none => 500

/-- Lines 77-87 of `chatFlow`: the request passed to `genkit.Generate`. -/
def chatFlowRequest (env : Env) (g : Globals) (userInput : ApiInput) : GenerateRequest :=
  { system := some "You are a helpful assistant that provides accurate and concise information."
    messages := loadHistory g.history userInput.SessionID
    prompt := userInput.Question
    tools := toolRefList
    MaxOutputTokens := toInt32 (chatMaxTokens env) }

/-- Function `chatFlow` of `main.go`. The result is the new globals with the
returned pair `(string, error)`. The local `maxTokens` declared with `:=`
shadows the global of that name, which is left untouched. -/
def chatFlow (env : Env) (generate : Generator) (g : Globals) (userInput : ApiInput) :
    Except Panic (Globals × String × Option String) :=
  match generate (chatFlowRequest env g userInput) with
  | .error err => .ok (g, "LLM generation failed", some err)
  | .ok text =>
    match saveHistory env g.history userInput.SessionID userInput.Question text with
    | .ok history => .ok ({ g with history := history }, text, none)
    | .error p => .error p

/-! ## `tools.go` -/

/-- Request built by the `generalQuestionAnswer` tool (lines 32-37); it reads
the global `maxTokens`. -/
def generalQuestionAnswerRequest (g : Globals) (question : String) : GenerateRequest :=
  { system := none
    messages := []
    prompt := question
    tools := []
    MaxOutputTokens := toInt32 g.maxTokens }

/-- Request built by the `getRecipe` tool (lines 121-127); it reads the global
`maxTokens`. -/
def getRecipeRequest (g : Globals) (input : RecipeInput) : GenerateRequest :=
  { system := none
    messages := []
    prompt := "Create a recipe with the following requirements: Main ingredient: "
      ++ input.Ingredient ++ " Dietary restrictions: " ++ input.DietaryRestrictions
    tools := []
    MaxOutputTokens := toInt32 g.maxTokens }

/-! ## Drivers used to state properties of call sequences -/

/-- One `saveHistory` call: session id, user message, bot message. -/
abbrev Call := String × String × String

/-- Runs a sequence of `saveHistory` calls in order, stopping at a panic. -/
def runCalls (env : Env) : Store → List Call → Except Panic Store
  | history, [] => .ok history
  | history, (s, u, a) :: rest =>
    match saveHistory env history s u a with
    | .ok history' => runCalls env history' rest
    | .error p => .error p

/-- Environment with no variable set. -/
def emptyEnv : Env := fun _ => ""

/-- Environment `env` with the variable `key` set to `value`. -/
def setenv (env : Env) (key value : String) : Env :=
  fun k => if k = key then value else env k

/-- Length of the history a run leaves for a session, `none` on a panic. -/
def storedLength (r : Except Panic Store) (sessionID : String) : Option Nat :=
  match r with
  | .ok history => some (history.get sessionID).length
  | .error _ => none

/-- History a run leaves for a session, `none` on a panic. -/
def storedHistory (r : Except Panic Store) (sessionID : String) : Option (List Message) :=
  match r with
  | .ok history => some (history.get sessionID)
  | .error _ => none

/-- Globals a `chatFlow` run leaves behind, `none` on a panic. -/
def globalsAfter (r : Except Panic (Globals × String × Option String)) : Option Globals :=
  match r with
  | .ok (g, _) => some g
  | .error _ => none

/-- Two's-complement wrap of an integer to Go's 64-bit `int`. -/
def wrapInt64 (n : Int) : Int :=
  (n + 2 ^ 63) % 2 ^ 64 - 2 ^ 63

/-! ## Basic facts about the model -/

theorem Store.get_set_same (h : Store) (k : String) (v : List Message) :
    (h.set k v).get k = v := by
  simp [Store.get, Store.set]

theorem Store.get_set_other (h : Store) (k k' : String) (v : List Message) (hk : k' ≠ k) :
    (h.set k v).get k' = h.get k' := by
  simp [Store.get, Store.set, hk]

/-- The subtraction `len(userHistory)-maxLength` of `saveHistory` is modelled
on unbounded integers. For a slice length and a maximum that fit a 64-bit
`int`, wrapping the difference changes neither the verdict of the bounds check
nor, when the check passes, the index. -/
theorem sliceIndex_wrap_irrelevant (len m : Int) (hl0 : 0 ≤ len) (hl : len < 2 ^ 63)
    (hm0 : -2 ^ 63 ≤ m) (hm : m < 2 ^ 63) (hgt : len > m) :
    ((0 ≤ wrapInt64 (len - m) ∧ wrapInt64 (len - m) ≤ len) ↔ (0 ≤ len - m ∧ len - m ≤ len))
    ∧ (0 ≤ len - m ∧ len - m ≤ len → wrapInt64 (len - m) = len - m) := by
  unfold wrapInt64
  norm_num at *
  constructor
  · constructor
    · intro h
      omega
    · intro h
      omega
  · intro h
    omega

/-- With a non-negative maximum and both guards passing, `saveHistory` stores
the last `maxLength` messages of the old history followed by the new pair. -/
theorem saveHistory_eq_of_nonneg (env : Env) (history : Store) (s u a : String)
    (hs : s ≠ "") (ha : a ≠ "") (hm : 0 ≤ historyMaxLength env) :
    saveHistory env history s u a =
      .ok (history.set s
        ((history.get s).drop ((history.get s).length - (historyMaxLength env).toNat)
          ++ [userMessageOf u, modelMessageOf a])) := by
  unfold saveHistory
  simp only [hs, ha, ne_eq, not_false_eq_true, and_self, if_true]
  by_cases hgt : ((history.get s).length : Int) > historyMaxLength env
  · have hlo : 0 ≤ ((history.get s).length : Int) - historyMaxLength env ∧
        ((history.get s).length : Int) - historyMaxLength env ≤ ((history.get s).length : Int) := by
      omega
    have hn : (((history.get s).length : Int) - historyMaxLength env).toNat
        = (history.get s).length - (historyMaxLength env).toNat := by
      omega
    simp only [hgt, if_true, sliceFrom, hlo, and_self, hn]
  · have hn : (history.get s).length - (historyMaxLength env).toNat = 0 := by
      omega
    simp only [hgt, if_false, hn, List.drop_zero]

/-- With either guard failing, `saveHistory` returns the store untouched. -/
theorem saveHistory_eq_of_guard (env : Env) (history : Store) (s u a : String)
    (h : s = "" ∨ a = "") : saveHistory env history s u a = .ok history := by
  unfold saveHistory
  have : ¬ (s ≠ "" ∧ a ≠ "") := by
    rcases h with h | h <;> simp [h]
  simp only [this, if_false]

/-- With a negative maximum and both guards passing, `saveHistory` panics. -/
theorem saveHistory_eq_of_neg (env : Env) (history : Store) (s u a : String)
    (hs : s ≠ "") (ha : a ≠ "") (hm : historyMaxLength env < 0) :
    saveHistory env history s u a = .error Panic.sliceBoundsOutOfRange := by
  unfold saveHistory
  simp only [hs, ha, ne_eq, not_false_eq_true, and_self, if_true]
  have hgt : ((history.get s).length : Int) > historyMaxLength env := by omega
  have hlo : ¬ (0 ≤ ((history.get s).length : Int) - historyMaxLength env ∧
      ((history.get s).length : Int) - historyMaxLength env ≤ ((history.get s).length : Int)) := by
    omega
  simp only [hgt, if_true, sliceFrom, hlo, if_false]

/-- The history `chatFlow` reads for a non-empty session id is the map entry. -/
theorem loadHistory_of_ne (history : Store) (s : String) (hs : s ≠ "") :
    loadHistory history s = history.get s := by
  simp [loadHistory, hs]

/-! ## Guards of `saveHistory` and the failure path of `chatFlow` -/

/-- C4: `saveHistory` called with an empty session id or an empty bot message
returns the session store it was given, unchanged as a whole, whatever the
store, the user message and the configuration. -/
theorem saveHistory_noop_on_empty (env : Env) (history : Store) (s u a : String)
    (h : s = "" ∨ a = "") :
    saveHistory env history s u a = .ok history :=
  saveHistory_eq_of_guard env history s u a h

theorem saveHistory_noop_on_empty_witness :
    (("" : String) = "" ∨ "hello" = "") ∧
      saveHistory (setenv emptyEnv "USER_HISTORY_MAX_LENGTH" "-1")
        (initGlobals.history.set "s1" [userMessageOf "hi"]) "" "hi" "hello"
        = .ok (initGlobals.history.set "s1" [userMessageOf "hi"]) :=
  ⟨Or.inl rfl, saveHistory_noop_on_empty _ _ "" "hi" "hello" (Or.inl rfl)⟩

/-- C5: when the generation collaborator returns an error `e`, `chatFlow`
returns the text "LLM generation failed" together with `e`, and the globals
(the session store among them) are the ones it started with. -/
theorem chatFlow_generation_failure (env : Env) (generate : Generator) (g : Globals)
    (userInput : ApiInput) (e : String)
    (h : generate (chatFlowRequest env g userInput) = .error e) :
    chatFlow env generate g userInput = .ok (g, "LLM generation failed", some e) := by
  simp [chatFlow, h]

theorem chatFlow_generation_failure_witness :
    (fun _ => Except.error "quota exceeded" : Generator)
        (chatFlowRequest (setenv emptyEnv "USER_HISTORY_MAX_LENGTH" "-1") initGlobals
          ⟨"hello", "abc"⟩) = .error "quota exceeded" ∧
      chatFlow (setenv emptyEnv "USER_HISTORY_MAX_LENGTH" "-1")
        (fun _ => .error "quota exceeded") initGlobals ⟨"hello", "abc"⟩
        = .ok (initGlobals, "LLM generation failed", some "quota exceeded") :=
  ⟨rfl, chatFlow_generation_failure (setenv emptyEnv "USER_HISTORY_MAX_LENGTH" "-1")
    (fun _ => .error "quota exceeded") initGlobals ⟨"hello", "abc"⟩ "quota exceeded" rfl⟩

/-! ## Order of the stored messages -/

/-- Shape of the history after one guarded `saveHistory` call and after a
second one on the same session, in terms of the two stored messages. -/
theorem saveHistory_order_of_nonneg (env : Env) (history : Store) (s u a : String)
    (hs : s ≠ "") (ha : a ≠ "") (hm : 0 ≤ historyMaxLength env) :
    ∃ history' pre,
      saveHistory env history s u a = .ok history' ∧
      loadHistory history' s = pre ++ [userMessageOf u, modelMessageOf a] ∧
      pre <:+ history.get s ∧
      (history.get s = [] →
        loadHistory history' s = [userMessageOf u, modelMessageOf a]) ∧
      ∀ u2 a2 : String, a2 ≠ "" →
        ∃ history'' pre2,
          saveHistory env history' s u2 a2 = .ok history'' ∧
          loadHistory history'' s = pre2 ++ [userMessageOf u2, modelMessageOf a2] ∧
          pre2 <:+ pre ++ [userMessageOf u, modelMessageOf a] ∧
          (2 ≤ historyMaxLength env →
            ∃ pre3, loadHistory history'' s =
              pre3 ++ [userMessageOf u, modelMessageOf a,
                userMessageOf u2, modelMessageOf a2]) := by
  refine ⟨_, (history.get s).drop ((history.get s).length - (historyMaxLength env).toNat),
    saveHistory_eq_of_nonneg env history s u a hs ha hm, ?_, ?_, ?_, ?_⟩
  · rw [loadHistory_of_ne _ _ hs, Store.get_set_same]
  · exact List.drop_suffix _ _
  · intro hnil
    rw [loadHistory_of_ne _ _ hs, Store.get_set_same, hnil]
    simp
  · intro u2 a2 ha2
    refine ⟨_, List.drop
      (((history.set s ((history.get s).drop
          ((history.get s).length - (historyMaxLength env).toNat)
          ++ [userMessageOf u, modelMessageOf a])).get s).length
        - (historyMaxLength env).toNat)
      ((history.set s ((history.get s).drop
          ((history.get s).length - (historyMaxLength env).toNat)
          ++ [userMessageOf u, modelMessageOf a])).get s),
      saveHistory_eq_of_nonneg env _ s u2 a2 hs ha2 hm, ?_, ?_, ?_⟩
    · rw [loadHistory_of_ne _ _ hs, Store.get_set_same]
    · rw [Store.get_set_same]
      exact List.drop_suffix _ _
    · intro h2
      rw [loadHistory_of_ne _ _ hs, Store.get_set_same, Store.get_set_same]
      generalize (history.get s).drop ((history.get s).length - (historyMaxLength env).toNat)
        = pre
      have hle : (pre ++ [userMessageOf u, modelMessageOf a]).length
          - (historyMaxLength env).toNat ≤ pre.length := by
        simp only [List.length_append, List.length_cons, List.length_nil]
        omega
      rw [List.drop_append_of_le_length hle]
      exact ⟨pre.drop ((pre ++ [userMessageOf u, modelMessageOf a]).length
        - (historyMaxLength env).toNat), by simp⟩

/-- C3: with a non-empty session id, a non-empty bot message and a
non-negative maximum, the history read back after `saveHistory` ends with the
message of role user and text `u` followed by the message of role model and
text `a`, and what precedes them is a suffix of the previous history; on a
session without history the result is exactly that pair. A further exchange is
stored after what is retained of this one, and after the whole of it when the
maximum is at least 2. -/
theorem saveHistory_preserves_order (env : Env) (history : Store) (s u a : String)
    (hs : s ≠ "") (ha : a ≠ "") (hm : 0 ≤ historyMaxLength env) :
    ∃ history' pre,
      saveHistory env history s u a = .ok history' ∧
      loadHistory history' s
        = pre ++ [Message.mk Role.user [Part.text u], Message.mk Role.model [Part.text a]] ∧
      pre <:+ history.get s ∧
      (history.get s = [] →
        loadHistory history' s
          = [Message.mk Role.user [Part.text u], Message.mk Role.model [Part.text a]]) ∧
      ∀ u2 a2 : String, a2 ≠ "" →
        ∃ history'' pre2,
          saveHistory env history' s u2 a2 = .ok history'' ∧
          loadHistory history'' s
            = pre2 ++ [Message.mk Role.user [Part.text u2],
                Message.mk Role.model [Part.text a2]] ∧
          pre2 <:+ pre ++ [Message.mk Role.user [Part.text u],
              Message.mk Role.model [Part.text a]] ∧
          (2 ≤ historyMaxLength env →
            ∃ pre3, loadHistory history'' s =
              pre3 ++ [Message.mk Role.user [Part.text u], Message.mk Role.model [Part.text a],
                Message.mk Role.user [Part.text u2], Message.mk Role.model [Part.text a2]]) := by
  simpa only [userMessageOf, modelMessageOf, NewTextPart]
    using saveHistory_order_of_nonneg env history s u a hs ha hm

theorem saveHistory_preserves_order_witness :
    ("s1" : String) ≠ "" ∧ ("hello" : String) ≠ "" ∧ 0 ≤ historyMaxLength emptyEnv ∧
    ∃ history' pre,
      saveHistory emptyEnv initGlobals.history "s1" "hi" "hello" = .ok history' ∧
      loadHistory history' "s1"
        = pre ++ [Message.mk Role.user [Part.text "hi"],
            Message.mk Role.model [Part.text "hello"]] ∧
      pre <:+ initGlobals.history.get "s1" ∧
      (initGlobals.history.get "s1" = [] →
        loadHistory history' "s1"
          = [Message.mk Role.user [Part.text "hi"],
              Message.mk Role.model [Part.text "hello"]]) ∧
      ∀ u2 a2 : String, a2 ≠ "" →
        ∃ history'' pre2,
          saveHistory emptyEnv history' "s1" u2 a2 = .ok history'' ∧
          loadHistory history'' "s1"
            = pre2 ++ [Message.mk Role.user [Part.text u2],
                Message.mk Role.model [Part.text a2]] ∧
          pre2 <:+ pre ++ [Message.mk Role.user [Part.text "hi"],
              Message.mk Role.model [Part.text "hello"]] ∧
          (2 ≤ historyMaxLength emptyEnv →
            ∃ pre3, loadHistory history'' "s1" =
              pre3 ++ [Message.mk Role.user [Part.text "hi"],
                Message.mk Role.model [Part.text "hello"],
                Message.mk Role.user [Part.text u2], Message.mk Role.model [Part.text a2]]) :=
  ⟨by decide, by decide, by decide,
    saveHistory_preserves_order emptyEnv initGlobals.history "s1" "hi" "hello"
      (by decide) (by decide) (by decide)⟩

/-! ## Length of the stored history -/

/-- Length stored by one guarded `saveHistory` call under a non-negative
maximum. -/
theorem saveHistory_length_of_nonneg (env : Env) (history : Store) (s u a : String)
    (hs : s ≠ "") (ha : a ≠ "") (hm : 0 ≤ historyMaxLength env) :
    ∃ history', saveHistory env history s u a = .ok history' ∧
      (∀ k, k ≠ s → history'.get k = history.get k) ∧
      ((history'.get s).length : Int)
        = min ((history.get s).length : Int) (historyMaxLength env) + 2 := by
  refine ⟨_, saveHistory_eq_of_nonneg env history s u a hs ha hm, ?_, ?_⟩
  · intro k hk
    exact Store.get_set_other _ _ _ _ hk
  · rw [Store.get_set_same]
    simp only [List.length_append, List.length_drop, List.length_cons, List.length_nil]
    omega

/-- Under a non-negative maximum `saveHistory` never panics and keeps every
session within `maxLength + 2` messages. -/
theorem saveHistory_keeps_bound (env : Env) (history : Store) (s u a : String)
    (hm : 0 ≤ historyMaxLength env)
    (hb : ∀ k, ((history.get k).length : Int) ≤ historyMaxLength env + 2) :
    ∃ history', saveHistory env history s u a = .ok history' ∧
      ∀ k, ((history'.get k).length : Int) ≤ historyMaxLength env + 2 := by
  by_cases hg : s ≠ "" ∧ a ≠ ""
  · obtain ⟨history', hok, hother, hlen⟩ :=
      saveHistory_length_of_nonneg env history s u a hg.1 hg.2 hm
    refine ⟨history', hok, ?_⟩
    intro k
    by_cases hk : k = s
    · subst hk
      rw [hlen]
      omega
    · rw [hother k hk]
      exact hb k
  · have hg' : s = "" ∨ a = "" := by
      by_cases h1 : s = ""
      · exact Or.inl h1
      · by_cases h2 : a = ""
        · exact Or.inr h2
        · exact absurd ⟨h1, h2⟩ hg
    exact ⟨history, saveHistory_eq_of_guard env history s u a hg', hb⟩

/-- Any run of `saveHistory` calls under a non-negative maximum completes and
keeps every session within `maxLength + 2` messages. -/
theorem runCalls_keeps_bound (env : Env) (hm : 0 ≤ historyMaxLength env)
    (calls : List Call) :
    ∀ history : Store,
      (∀ k, ((history.get k).length : Int) ≤ historyMaxLength env + 2) →
      ∃ history', runCalls env history calls = .ok history' ∧
        ∀ k, ((history'.get k).length : Int) ≤ historyMaxLength env + 2 := by
  induction calls with
  | nil =>
    intro history hb
    exact ⟨history, rfl, hb⟩
  | cons c rest ih =>
    intro history hb
    obtain ⟨s, u, a⟩ := c
    obtain ⟨h1, hok, hb1⟩ := saveHistory_keeps_bound env history s u a hm hb
    obtain ⟨h2, hrun, hb2⟩ := ih h1 hb1
    refine ⟨h2, ?_, hb2⟩
    simp only [runCalls, hok]
    exact hrun

/-- Repeating one guarded call `n` times grows the session by two messages per
call as long as the maximum has not been passed. -/
theorem runCalls_replicate_length (env : Env) (s u a : String)
    (hs : s ≠ "") (ha : a ≠ "") (hm : 0 ≤ historyMaxLength env) (n : Nat) :
    ∀ history : Store,
      ((history.get s).length : Int) + 2 * (n : Int) ≤ historyMaxLength env + 2 →
      ∃ history', runCalls env history (List.replicate n (s, u, a)) = .ok history' ∧
        ((history'.get s).length : Int) = ((history.get s).length : Int) + 2 * (n : Int) := by
  induction n with
  | zero =>
    intro history _
    exact ⟨history, rfl, by simp⟩
  | succ n ih =>
    intro history hle
    obtain ⟨h1, hok, _, hlen⟩ := saveHistory_length_of_nonneg env history s u a hs ha hm
    have hlen1 : ((h1.get s).length : Int) = ((history.get s).length : Int) + 2 := by
      rw [hlen]
      push_cast at hle
      omega
    obtain ⟨h2, hrun, hlen2⟩ := ih h1 (by rw [hlen1]; push_cast at hle; omega)
    refine ⟨h2, ?_, ?_⟩
    · simp only [List.replicate_succ, runCalls, hok]
      exact hrun
    · rw [hlen2, hlen1]
      push_cast
      omega

/-- C9: under a configured maximum `m ≥ 0`, a `saveHistory` call with
non-empty session id and bot message stores exactly `min (len h) m + 2`
messages for a prior history `h` (the trim acts on the old history, the pair
is appended afterwards); every sequence of calls from the empty store
completes with every session holding at most `m + 2` messages (a prefix of a
sequence being a sequence, this holds after each call); and for even `m` some
sequence of calls on one session reaches `m + 2`. -/
theorem saveHistory_length_min_plus_two (env : Env) (m : Int)
    (hmax : historyMaxLength env = m) (hm : 0 ≤ m) :
    (∀ (history : Store) (s u a : String), s ≠ "" → a ≠ "" →
      ∃ history', saveHistory env history s u a = .ok history' ∧
        ((history'.get s).length : Int) = min ((history.get s).length : Int) m + 2) ∧
    (∀ calls : List Call,
      ∃ history', runCalls env initGlobals.history calls = .ok history' ∧
        ∀ s, ((history'.get s).length : Int) ≤ m + 2) ∧
    (Even m →
      ∃ (calls : List Call) (history' : Store),
        (∀ c ∈ calls, c.1 = "s1") ∧
        runCalls env initGlobals.history calls = .ok history' ∧
        ((history'.get "s1").length : Int) = m + 2) := by
  subst hmax
  refine ⟨?_, ?_, ?_⟩
  · intro history s u a hs ha
    obtain ⟨history', hok, _, hlen⟩ :=
      saveHistory_length_of_nonneg env history s u a hs ha hm
    exact ⟨history', hok, hlen⟩
  · intro calls
    apply runCalls_keeps_bound env hm calls
    intro k
    simp only [initGlobals, Store.get, Option.getD_none, List.length_nil]
    omega
  · intro heven
    obtain ⟨j, hj⟩ := heven
    have hinit : ((initGlobals.history.get "s1").length : Int) = 0 := by
      simp [initGlobals, Store.get]
    obtain ⟨history', hrun, hlen⟩ :=
      runCalls_replicate_length env "s1" "q" "a" (by decide) (by decide) hm (j.toNat + 1)
        initGlobals.history (by rw [hinit]; push_cast; omega)
    refine ⟨List.replicate (j.toNat + 1) ("s1", "q", "a"), history', ?_, hrun, ?_⟩
    · intro c hc
      rw [List.eq_of_mem_replicate hc]
    · rw [hlen, hinit]
      push_cast
      omega

theorem saveHistory_length_min_plus_two_witness :
    historyMaxLength (setenv emptyEnv "USER_HISTORY_MAX_LENGTH" "2") = 2 ∧ (0 : Int) ≤ 2 ∧
    ((∀ (history : Store) (s u a : String), s ≠ "" → a ≠ "" →
      ∃ history',
        saveHistory (setenv emptyEnv "USER_HISTORY_MAX_LENGTH" "2") history s u a
          = .ok history' ∧
        ((history'.get s).length : Int) = min ((history.get s).length : Int) 2 + 2) ∧
    (∀ calls : List Call,
      ∃ history',
        runCalls (setenv emptyEnv "USER_HISTORY_MAX_LENGTH" "2") initGlobals.history calls
          = .ok history' ∧
        ∀ s, ((history'.get s).length : Int) ≤ 2 + 2) ∧
    (Even (2 : Int) →
      ∃ (calls : List Call) (history' : Store),
        (∀ c ∈ calls, c.1 = "s1") ∧
        runCalls (setenv emptyEnv "USER_HISTORY_MAX_LENGTH" "2") initGlobals.history calls
          = .ok history' ∧
        ((history'.get "s1").length : Int) = 2 + 2)) :=
  ⟨by decide, by decide,
    saveHistory_length_min_plus_two (setenv emptyEnv "USER_HISTORY_MAX_LENGTH" "2") 2
      (by decide) (by decide)⟩

/-! ## Bounds of the slice expression -/

/-- A successfully parsed maximum is the one `saveHistory` uses. -/
theorem historyMaxLength_of_parsed (env : Env) (m : Int)
    (h : Atoi (env "USER_HISTORY_MAX_LENGTH") = some m) : historyMaxLength env = m := by
  simp [historyMaxLength, h]

/-- When `Atoi` reports an error the maximum is the default 10. -/
theorem historyMaxLength_of_error (env : Env)
    (h : Atoi (env "USER_HISTORY_MAX_LENGTH") = none) : historyMaxLength env = 10 := by
  simp [historyMaxLength, h]

/-- The maximum is negative only when a negative integer was parsed. -/
theorem historyMaxLength_neg_iff (env : Env) :
    historyMaxLength env < 0 ↔
      ∃ m, Atoi (env "USER_HISTORY_MAX_LENGTH") = some m ∧ m < 0 := by
  constructor
  · intro h
    cases hp : Atoi (env "USER_HISTORY_MAX_LENGTH") with
    | none =>
      rw [historyMaxLength_of_error env hp] at h
      omega
    | some m =>
      rw [historyMaxLength_of_parsed env m hp] at h
      exact ⟨m, rfl, h⟩
  · rintro ⟨m, hp, hneg⟩
    rw [historyMaxLength_of_parsed env m hp]
    exact hneg

/-- C10: `saveHistory` panics on its slice expression exactly when the session
id and the bot message are non-empty and the parsed `USER_HISTORY_MAX_LENGTH`
is negative. For a parsed maximum `m ≥ 0`, whenever the slice expression is
evaluated (`len > m`) its index `len - m` lies in `[0, len]` and the slicing
succeeds, and `saveHistory` completes without a panic. -/
theorem saveHistory_panics_iff_negative_max (env : Env) (history : Store) (s u a : String) :
    ((∃ p, saveHistory env history s u a = .error p) ↔
      (s ≠ "" ∧ a ≠ "" ∧ ∃ m, Atoi (env "USER_HISTORY_MAX_LENGTH") = some m ∧ m < 0)) ∧
    (∀ m, Atoi (env "USER_HISTORY_MAX_LENGTH") = some m → 0 ≤ m →
      (((history.get s).length : Int) > m →
        0 ≤ ((history.get s).length : Int) - m ∧
        ((history.get s).length : Int) - m ≤ ((history.get s).length : Int) ∧
        ∃ t, sliceFrom (history.get s) (((history.get s).length : Int) - m) = .ok t) ∧
      ∃ history', saveHistory env history s u a = .ok history') := by
  constructor
  · constructor
    · rintro ⟨p, hp⟩
      by_cases hs : s = ""
      · rw [saveHistory_eq_of_guard env history s u a (Or.inl hs)] at hp
        cases hp
      · by_cases ha : a = ""
        · rw [saveHistory_eq_of_guard env history s u a (Or.inr ha)] at hp
          cases hp
        · by_cases hm : 0 ≤ historyMaxLength env
          · rw [saveHistory_eq_of_nonneg env history s u a hs ha hm] at hp
            cases hp
          · exact ⟨hs, ha, (historyMaxLength_neg_iff env).1 (by omega)⟩
    · rintro ⟨hs, ha, hneg⟩
      exact ⟨_, saveHistory_eq_of_neg env history s u a hs ha
        ((historyMaxLength_neg_iff env).2 hneg)⟩
  · intro m hp hm
    have hmax := historyMaxLength_of_parsed env m hp
    constructor
    · intro hgt
      have hlo : 0 ≤ ((history.get s).length : Int) - m ∧
          ((history.get s).length : Int) - m ≤ ((history.get s).length : Int) := by
        omega
      refine ⟨hlo.1, hlo.2, (history.get s).drop (((history.get s).length : Int) - m).toNat, ?_⟩
      simp only [sliceFrom, hlo, and_self, if_true]
    · by_cases hg : s ≠ "" ∧ a ≠ ""
      · exact ⟨_, saveHistory_eq_of_nonneg env history s u a hg.1 hg.2 (by omega)⟩
      · have hg' : s = "" ∨ a = "" := by
          by_cases h1 : s = ""
          · exact Or.inl h1
          · by_cases h2 : a = ""
            · exact Or.inr h2
            · exact absurd ⟨h1, h2⟩ hg
        exact ⟨history, saveHistory_eq_of_guard env history s u a hg'⟩

theorem saveHistory_panics_iff_negative_max_witness :
    (∃ p, saveHistory (setenv emptyEnv "USER_HISTORY_MAX_LENGTH" "-1") initGlobals.history
      "s1" "hi" "hello" = .error p) ∧
    ∃ history', saveHistory (setenv emptyEnv "USER_HISTORY_MAX_LENGTH" "2")
      (initGlobals.history.set "s1"
        [userMessageOf "q1", modelMessageOf "a1", userMessageOf "q2"])
      "s1" "q3" "a3" = .ok history' :=
  ⟨(saveHistory_panics_iff_negative_max (setenv emptyEnv "USER_HISTORY_MAX_LENGTH" "-1")
      initGlobals.history "s1" "hi" "hello").1.2
      ⟨by decide, by decide, -1, by decide, by decide⟩,
    ((saveHistory_panics_iff_negative_max (setenv emptyEnv "USER_HISTORY_MAX_LENGTH" "2")
      (initGlobals.history.set "s1"
        [userMessageOf "q1", modelMessageOf "a1", userMessageOf "q2"])
      "s1" "q3" "a3").2 2 (by decide) (by decide)).2⟩

/-! ## Configuration defaults -/

/-- No run of `chatFlow` assigns the global `maxTokens`: its `maxTokens` is a
local variable. -/
theorem chatFlow_keeps_global_maxTokens (env : Env) (generate : Generator) (g g' : Globals)
    (userInput : ApiInput) (r : String × Option String)
    (h : chatFlow env generate g userInput = .ok (g', r)) : g'.maxTokens = g.maxTokens := by
  unfold chatFlow at h
  cases hgen : generate (chatFlowRequest env g userInput) with
  | error e =>
    simp only [hgen] at h
    cases h
    rfl
  | ok text =>
    simp only [hgen] at h
    cases hsave : saveHistory env g.history userInput.SessionID userInput.Question text with
    | error p =>
      simp only [hsave] at h
      cases h
    | ok history' =>
      simp only [hsave] at h
      cases h
      rfl

/-- C1 (evaluation): with `USER_HISTORY_MAX_LENGTH` unset the maximum is 10,
yet six exchanges on one session starting from the empty store leave twelve
stored messages; the fifth already leaves ten, and the trim of the sixth call
runs before its pair is appended. -/
theorem history_exceeds_maximum_after_six_exchanges :
    historyMaxLength emptyEnv = 10 ∧
    storedLength (runCalls emptyEnv initGlobals.history
      [("s1", "q1", "a1"), ("s1", "q2", "a2"), ("s1", "q3", "a3"), ("s1", "q4", "a4"),
        ("s1", "q5", "a5")]) "s1" = some 10 ∧
    storedLength (runCalls emptyEnv initGlobals.history
      [("s1", "q1", "a1"), ("s1", "q2", "a2"), ("s1", "q3", "a3"), ("s1", "q4", "a4"),
        ("s1", "q5", "a5"), ("s1", "q6", "a6")]) "s1" = some 12 := by
  decide

/-- C2 (evaluation): with `USER_HISTORY_MAX_LENGTH=2`, two exchanges on "s1"
from the empty store leave all four messages, not only the second exchange. -/
theorem two_exchanges_with_max_two_keep_four :
    historyMaxLength (setenv emptyEnv "USER_HISTORY_MAX_LENGTH" "2") = 2 ∧
    storedHistory (runCalls (setenv emptyEnv "USER_HISTORY_MAX_LENGTH" "2")
      initGlobals.history [("s1", "q1", "a1"), ("s1", "q2", "a2")]) "s1"
      = some [userMessageOf "q1", modelMessageOf "a1",
          userMessageOf "q2", modelMessageOf "a2"] ∧
    storedHistory (runCalls (setenv emptyEnv "USER_HISTORY_MAX_LENGTH" "2")
      initGlobals.history [("s1", "q1", "a1"), ("s1", "q2", "a2")]) "s1"
      ≠ some [userMessageOf "q2", modelMessageOf "a2"] := by
  decide

/-- C6 (evaluation): with `LLM_MAX_OUTPUT_TOKENS_INT` unset `chatFlow` passes
500, and with it set to 800 it passes 800, while in the globals left by that
same request the `generalQuestionAnswer` and `getRecipe` tools both pass 0,
the never-assigned global `maxTokens`. -/
theorem tools_pass_zero_max_output_tokens :
    (chatFlowRequest emptyEnv initGlobals ⟨"hello", "abc"⟩).MaxOutputTokens = 500 ∧
    (globalsAfter (chatFlow emptyEnv (fun _ => .ok "hi") initGlobals ⟨"hello", "abc"⟩)).map
      (fun g => (generalQuestionAnswerRequest g "why is the sky blue").MaxOutputTokens)
      = some 0 ∧
    (globalsAfter (chatFlow emptyEnv (fun _ => .ok "hi") initGlobals ⟨"hello", "abc"⟩)).map
      (fun g => (getRecipeRequest g ⟨"rice", "vegan"⟩).MaxOutputTokens) = some 0 ∧
    (chatFlowRequest (setenv emptyEnv "LLM_MAX_OUTPUT_TOKENS_INT" "800") initGlobals
      ⟨"hello", "abc"⟩).MaxOutputTokens = 800 ∧
    (globalsAfter (chatFlow (setenv emptyEnv "LLM_MAX_OUTPUT_TOKENS_INT" "800")
      (fun _ => .ok "hi") initGlobals ⟨"hello", "abc"⟩)).map
      (fun g => ((generalQuestionAnswerRequest g "why is the sky blue").MaxOutputTokens,
        (getRecipeRequest g ⟨"rice", "vegan"⟩).MaxOutputTokens)) = some (0, 0) := by
  decide

end GenkitDemo
